import Mathlib

/-!
Shallow embedding of `src/main.rs` (matrix-builder): three dense 2-D storage
layouts (row-major, column-major, block/quadrant) sharing one indexing
contract, plus the two-variant error taxonomy.

Modelling conventions:
* Rust `Vec<T>` is `List T`; `usize` is `Nat`.
* `get` returns `Option (Except MatrixError T)`: `some (Except.ok v)` is Rust
  `Ok(v)`, `some (Except.error e)` is Rust `Err(e)`, and `none` marks the runs
  on which the Rust code panics (an out-of-range `Vec` index after the two
  checks both pass, a quadrant index past the four stored blocks, or the
  division by `len / 2 = 0` in the block layout).
* Constructors are `Option`-valued for the same reason: `MatrixRowMajor::new`
  reads `slice[0]` unconditionally, so it panics on an empty outer slice;
  `MatrixColMajor::new` additionally reads `inner[j]` for `j` below the first
  row's length, so it panics when a later row is shorter than row 0.
* Rust `format!` output is rebuilt with string concatenation, keeping the
  exact argument order of the source (including the boolean formatted by the
  row-major out-of-bound arm and the swapped arguments of the column-major
  forbidden arm).
-/

/-- The `MatrixError` enum of the source: `OutOfBoundIndexing` for an offset
past the allocated buffer, `ForbiddenIndexing` for a coordinate outside the
declared shape; each carries the formatted message `String`. -/
inductive MatrixError where
  | OutOfBoundIndexing (msg : String)
  | ForbiddenIndexing (msg : String)
deriving DecidableEq

deriving instance DecidableEq for Except

/-- The `MatrixRowMajor<T>` struct: flat buffer `arr` and stride `len`. -/
structure MatrixRowMajor (T : Type) where
  arr : List T
  len : Nat
deriving DecidableEq

/-- The `MatrixColMajor<T>` struct: flat buffer `arr` and stride `len`. -/
structure MatrixColMajor (T : Type) where
  arr : List T
  len : Nat
deriving DecidableEq

/-- The `MatrixBlocky<T>` struct: a vector of row-major quadrants and the
original side length `len`. -/
structure MatrixBlocky (T : Type) where
  arr : List (MatrixRowMajor T)
  len : Nat
deriving DecidableEq

namespace MatrixRowMajor

/-- `MatrixRowMajor::default`: empty buffer, stride 0. -/
def default (T : Type) : MatrixRowMajor T := { arr := [], len := 0 }

/-- `MatrixRowMajor::new`: flatten the rows (`flat_map`) into one buffer and
take the first row's length as the stride; `slice[0]` panics (`none`) on an
empty input. -/
def new (slice : List (List T)) : Option (MatrixRowMajor T) :=
  match slice with
  | [] => none
  | r0 :: _ => some { arr := slice.flatten, len := r0.length }

/-- `MatrixRowMajor::get`: shape check `j > len`, buffer check
`i*len + j > arr.len()`, then the raw index `arr[i*len + j]` (which panics,
i.e. `none`, when the offset is exactly `arr.len()`, the one value passing
both strict checks while out of range). -/
def get (m : MatrixRowMajor T) (i j : Nat) : Option (Except MatrixError T) :=
  if j > m.len then
    some (Except.error (MatrixError.ForbiddenIndexing
      ("Forbidden indexing: the len of matrix is " ++ toString m.len ++
        " but the index is " ++ toString j)))
  else if i * m.len + j > m.arr.length then
    some (Except.error (MatrixError.OutOfBoundIndexing
      ("Out of bound indexing: len is " ++ toString m.len ++
        " but the index is " ++ toString (decide (i * m.len + j > m.arr.length)))))
  else
    (m.arr[i * m.len + j]?).map Except.ok

end MatrixRowMajor

namespace MatrixColMajor

/-- `MatrixColMajor::default`: empty buffer, stride 0. -/
def default (T : Type) : MatrixColMajor T := { arr := [], len := 0 }

end MatrixColMajor

/-- Option-valued traversal used to model the panicking iterator pipelines of
`MatrixColMajor::new`: `none` as soon as one element is missing. -/
def optMap (f : α → Option β) : List α → Option (List β)
  | [] => some []
  | x :: xs =>
    match f x, optMap f xs with
    | some y, some ys => some (y :: ys)
    | _, _ => none

namespace MatrixColMajor

/-- `MatrixColMajor::new`: for each destination column `j` below the first
row's length, collect `inner[j]` from every row (panicking, i.e. `none`, when
a row is shorter), concatenate the columns, and take the number of rows as
the stride. -/
def new (slice : List (List T)) : Option (MatrixColMajor T) :=
  match slice with
  | [] => none
  | r0 :: _ =>
    (optMap (fun j => optMap (fun inner => inner[j]?) slice)
        (List.range r0.length)).map
      (fun cols => { arr := cols.flatten, len := slice.length })

/-- `MatrixColMajor::get`: shape check `i > len`, buffer check
`j*len + i > arr.len()`, then the raw index `arr[j*len + i]`.  The forbidden
message formats `i` first and `len` second, exactly as the source does. -/
def get (m : MatrixColMajor T) (i j : Nat) : Option (Except MatrixError T) :=
  if i > m.len then
    some (Except.error (MatrixError.ForbiddenIndexing
      ("Forbidden indexing: the len of matrix is " ++ toString i ++
        " but the index is " ++ toString m.len)))
  else if j * m.len + i > m.arr.length then
    some (Except.error (MatrixError.OutOfBoundIndexing
      ("Out of bound indexing: len is " ++ toString m.len ++
        " but the index is " ++ toString (j * m.len + i))))
  else
    (m.arr[j * m.len + i]?).map Except.ok

end MatrixColMajor

namespace MatrixBlocky

/-- `MatrixBlocky::default`: empty quadrant vector, side length 0. -/
def default (T : Type) : MatrixBlocky T := { arr := [], len := 0 }

/-- `MatrixBlocky::new`: split the input into four quadrants with
`take (len/2)` / `skip (len/2) take (len/2)` on rows and columns, build a
row-major matrix from each (top-left, top-right, bottom-left, bottom-right),
and store the original length.  Each inner `MatrixRowMajor::new` panics
(`none`) when its quadrant has no rows. -/
def new (slice : List (List T)) : Option (MatrixBlocky T) := do
  let h := slice.length / 2
  let q0 ← MatrixRowMajor.new ((slice.take h).map (fun row => row.take h))
  let q1 ← MatrixRowMajor.new ((slice.take h).map (fun row => (row.drop h).take h))
  let q2 ← MatrixRowMajor.new (((slice.drop h).take h).map (fun row => row.take h))
  let q3 ← MatrixRowMajor.new (((slice.drop h).take h).map (fun row => (row.drop h).take h))
  some { arr := [q0, q1, q2, q3], len := slice.length }

/-- `MatrixBlocky::get`: pick quadrant `(i / (len/2)) * 2 + (j / (len/2))`
and delegate with coordinates reduced mod `len/2`.  When `len/2 = 0` the Rust
division panics (`none`); an out-of-range quadrant index also panics. -/
def get (m : MatrixBlocky T) (i j : Nat) : Option (Except MatrixError T) :=
  if m.len / 2 = 0 then none
  else
    match m.arr[(i / (m.len / 2)) * 2 + (j / (m.len / 2))]? with
    | none => none
    | some block => block.get (i % (m.len / 2)) (j % (m.len / 2))

end MatrixBlocky

/-- A rectangular input: `r` rows, each of length `c`. -/
def Rectangular (rows : List (List T)) (r c : Nat) : Prop :=
  rows.length = r ∧ ∀ row ∈ rows, row.length = c

instance (rows : List (List T)) (r c : Nat) : Decidable (Rectangular rows r c) :=
  inferInstanceAs (Decidable (rows.length = r ∧ ∀ row ∈ rows, row.length = c))

-- Sanity checks mirroring the repository's own test values.
example :
    (MatrixRowMajor.new ([[1, 2, 3, 4], [5, 6, 7, 8], [9, 10, 11, 12]] :
        List (List Nat))).map (fun m => m.get 1 1) =
      some (some (Except.ok 6)) := by decide

example :
    (MatrixColMajor.new ([[1, 2, 3, 4], [5, 6, 7, 8], [9, 10, 11, 12]] :
        List (List Nat))).map (fun m => m.get 2 3) =
      some (some (Except.ok 12)) := by decide

example :
    (MatrixBlocky.new ([[1, 2, 3, 4, 5, 6], [7, 8, 9, 10, 11, 12],
        [13, 14, 15, 16, 17, 18], [19, 20, 21, 22, 23, 24],
        [25, 26, 27, 28, 29, 30], [31, 32, 33, 34, 35, 36]] :
        List (List Nat))).map (fun m => m.get 3 2) =
      some (some (Except.ok 21)) := by decide

/-! Helper lemmas about flattening uniform-length rows and the option-valued
traversal, used to relate each layout's buffer to the original input. -/

lemma flatten_length_uniform {T : Type} {c : Nat} :
    ∀ rows : List (List T), (∀ row ∈ rows, row.length = c) →
      rows.flatten.length = rows.length * c := by
  intro rows
  induction rows with
  | nil => intro _; simp
  | cons row rest ih =>
    intro hlen
    simp only [List.flatten_cons, List.length_append, List.length_cons]
    rw [hlen row (List.mem_cons_self _ _),
      ih (fun r hr => hlen r (List.mem_cons_of_mem _ hr))]
    ring

lemma flatten_getElem_uniform {T : Type} {c : Nat} :
    ∀ (rows : List (List T)) (i j : Nat),
      (∀ row ∈ rows, row.length = c) → i < rows.length → j < c →
      rows.flatten[i * c + j]? = rows[i]?.bind (fun row => row[j]?) := by
  intro rows
  induction rows with
  | nil => intro i j _ hi _; simp at hi
  | cons row rest ih =>
    intro i j hlen hi hj
    have hrow : row.length = c := hlen row (List.mem_cons_self _ _)
    cases i with
    | zero =>
      simp only [List.flatten_cons, Nat.zero_mul, Nat.zero_add,
        List.getElem?_cons_zero, Option.some_bind]
      exact List.getElem?_append_left (by omega)
    | succ i' =>
      have hmul : (i' + 1) * c = i' * c + c := by ring
      simp only [List.flatten_cons, List.getElem?_cons_succ]
      rw [List.getElem?_append_right (by omega)]
      have harith : (i' + 1) * c + j - row.length = i' * c + j := by omega
      rw [harith]
      exact ih i' j (fun r hr => hlen r (List.mem_cons_of_mem _ hr))
        (by simpa using hi) hj

lemma optMap_sound {α β : Type} (f : α → Option β) :
    ∀ l : List α, (∀ x ∈ l, (f x).isSome) →
      ∃ res, optMap f l = some res ∧ res.length = l.length ∧
        ∀ i : Nat, res[i]? = l[i]?.bind f := by
  intro l
  induction l with
  | nil =>
    intro _
    exact ⟨[], rfl, rfl, fun i => by simp⟩
  | cons x xs ih =>
    intro h
    obtain ⟨res, hres, hlen, hget⟩ := ih (fun y hy => h y (List.mem_cons_of_mem _ hy))
    obtain ⟨y, hy⟩ := Option.isSome_iff_exists.mp (h x (List.mem_cons_self _ _))
    refine ⟨y :: res, ?_, by simp [hlen], ?_⟩
    · simp [optMap, hy, hres]
    · intro i
      cases i with
      | zero => simp [hy]
      | succ i' => simpa using hget i'

/-! Soundness of the two flat layouts over a rectangular input. -/

lemma rowMajor_get_eq_ok {T : Type} (m : MatrixRowMajor T) (i j : Nat) (v : T)
    (hj : j ≤ m.len) (hoff : i * m.len + j < m.arr.length)
    (hv : m.arr[i * m.len + j]? = some v) :
    m.get i j = some (Except.ok v) := by
  unfold MatrixRowMajor.get
  rw [if_neg (by omega), if_neg (by omega), hv]
  rfl

lemma colMajor_get_eq_ok {T : Type} (m : MatrixColMajor T) (i j : Nat) (v : T)
    (hi : i ≤ m.len) (hoff : j * m.len + i < m.arr.length)
    (hv : m.arr[j * m.len + i]? = some v) :
    m.get i j = some (Except.ok v) := by
  unfold MatrixColMajor.get
  rw [if_neg (by omega), if_neg (by omega), hv]
  rfl

lemma rowMajor_new_sound {T : Type} {rows : List (List T)} {r c : Nat}
    (hrect : Rectangular rows r c) (hr : 1 ≤ r) :
    ∃ m : MatrixRowMajor T, MatrixRowMajor.new rows = some m ∧
      m.arr = rows.flatten ∧ m.len = c ∧ m.arr.length = r * c := by
  obtain ⟨hlen, hall⟩ := hrect
  cases rows with
  | nil => simp at hlen; omega
  | cons r0 rest =>
    refine ⟨⟨(r0 :: rest).flatten, r0.length⟩, rfl, rfl, ?_, ?_⟩
    · exact hall r0 (List.mem_cons_self _ _)
    · show ((r0 :: rest).flatten).length = r * c
      rw [flatten_length_uniform _ hall, hlen]

lemma rowMajor_get_ok {T : Type} {rows : List (List T)} {r c : Nat}
    (hrect : Rectangular rows r c) {m : MatrixRowMajor T}
    (hm : MatrixRowMajor.new rows = some m) {i j : Nat} (hi : i < r) (hj : j < c) :
    ∃ v, rows[i]?.bind (fun row => row[j]?) = some v ∧
      m.get i j = some (Except.ok v) := by
  obtain ⟨m', hm', harr, hlen, hbuf⟩ := rowMajor_new_sound hrect (by omega)
  rw [hm'] at hm
  injection hm with hm
  subst hm
  obtain ⟨hrows, hall⟩ := hrect
  have hi' : i < rows.length := by omega
  obtain ⟨rowi, hrowi⟩ : ∃ row, rows[i]? = some row := ⟨_, List.getElem?_eq_getElem hi'⟩
  have hrowlen : rowi.length = c := hall rowi (List.getElem?_mem hrowi)
  obtain ⟨v, hv⟩ : ∃ v, rowi[j]? = some v := ⟨_, List.getElem?_eq_getElem (by omega)⟩
  have hoff : i * c + j < r * c := by
    have h1 : i * c + j < (i + 1) * c := by
      have : (i + 1) * c = i * c + c := by ring
      omega
    have h2 : (i + 1) * c ≤ r * c := Nat.mul_le_mul_right c (by omega)
    omega
  have hidx : m'.arr[i * c + j]? = some v := by
    rw [harr, flatten_getElem_uniform rows i j hall hi' hj, hrowi, Option.some_bind, hv]
  refine ⟨v, by rw [hrowi, Option.some_bind, hv], ?_⟩
  exact rowMajor_get_eq_ok m' i j v (by rw [hlen]; omega)
    (by rw [hlen, hbuf]; omega) (by rw [hlen]; exact hidx)

lemma colMajor_new_sound {T : Type} {rows : List (List T)} {r c : Nat}
    (hrect : Rectangular rows r c) (hr : 1 ≤ r) :
    ∃ m : MatrixColMajor T, MatrixColMajor.new rows = some m ∧
      m.len = r ∧ m.arr.length = c * r ∧
      ∀ i j : Nat, i < r → j < c →
        m.arr[j * r + i]? = rows[i]?.bind (fun row => row[j]?) := by
  obtain ⟨hrows, hall⟩ := hrect
  have hinner : ∀ j : Nat, j < c →
      ∃ col, optMap (fun inner => inner[j]?) rows = some col ∧
        col.length = rows.length ∧ ∀ i : Nat, col[i]? = rows[i]?.bind (fun row => row[j]?) := by
    intro j hj
    exact optMap_sound _ rows (fun row hrow => by
      rw [List.getElem?_eq_getElem (by rw [hall row hrow]; omega)]
      rfl)
  cases rows with
  | nil => simp at hrows; omega
  | cons r0 rest =>
    have hc : r0.length = c := hall r0 (List.mem_cons_self _ _)
    obtain ⟨cols, hcols, hcolslen, hcolsget⟩ :=
      optMap_sound (fun j => optMap (fun inner => inner[j]?) (r0 :: rest))
        (List.range c)
        (fun j hj => by
          obtain ⟨col, hcol, _, _⟩ := hinner j (List.mem_range.mp hj)
          show (optMap (fun inner => inner[j]?) (r0 :: rest)).isSome = true
          rw [hcol]; rfl)
    have hcolmem : ∀ col ∈ cols, col.length = r := by
      intro col hcol
      obtain ⟨n, hn⟩ := List.mem_iff_getElem?.mp hcol
      have hnlen : n < c := by
        by_contra hge
        rw [List.getElem?_eq_none (by simpa [hcolslen] using hge)] at hn
        exact Option.noConfusion hn
      have := hcolsget n
      rw [List.getElem?_range hnlen, Option.some_bind] at this
      obtain ⟨coln, hcoln, hcolnlen, _⟩ := hinner n hnlen
      rw [hn, hcoln] at this
      injection this with this
      rw [this, hcolnlen, hrows]
    have hcolslen' : cols.length = c := by
      rw [hcolslen]; exact List.length_range c
    refine ⟨⟨cols.flatten, (r0 :: rest).length⟩, ?_, by simpa using hrows, ?_, ?_⟩
    · show Option.map
          (fun cols => ({ arr := cols.flatten, len := (r0 :: rest).length } : MatrixColMajor T))
          (optMap (fun j => optMap (fun inner => inner[j]?) (r0 :: rest))
            (List.range r0.length)) =
        some { arr := cols.flatten, len := (r0 :: rest).length }
      rw [hc, hcols]
      rfl
    · show cols.flatten.length = c * r
      rw [flatten_length_uniform cols hcolmem, hcolslen']
    · intro i j hi hj
      show cols.flatten[j * r + i]? = _
      rw [flatten_getElem_uniform cols j i hcolmem (by omega) hi]
      have := hcolsget j
      rw [List.getElem?_range hj, Option.some_bind] at this
      obtain ⟨colj, hcolj, _, hcoljget⟩ := hinner j hj
      rw [this, hcolj, Option.some_bind, hcoljget i]

lemma colMajor_get_ok {T : Type} {rows : List (List T)} {r c : Nat}
    (hrect : Rectangular rows r c) {m : MatrixColMajor T}
    (hm : MatrixColMajor.new rows = some m) {i j : Nat} (hi : i < r) (hj : j < c) :
    ∃ v, rows[i]?.bind (fun row => row[j]?) = some v ∧
      m.get i j = some (Except.ok v) := by
  obtain ⟨m', hm', hlen, hbuf, hgetarr⟩ := colMajor_new_sound hrect (by omega)
  rw [hm'] at hm
  injection hm with hm
  subst hm
  obtain ⟨hrows, hall⟩ := hrect
  obtain ⟨rowi, hrowi⟩ : ∃ row, rows[i]? = some row :=
    ⟨_, List.getElem?_eq_getElem (by omega)⟩
  have hrowlen : rowi.length = c := hall rowi (List.getElem?_mem hrowi)
  obtain ⟨v, hv⟩ : ∃ v, rowi[j]? = some v :=
    ⟨_, List.getElem?_eq_getElem (by omega)⟩
  have hidx : m'.arr[j * m'.len + i]? = some v := by
    rw [hlen, hgetarr i j hi hj, hrowi, Option.some_bind, hv]
  have hofflt : j * r + i < c * r := by
    have h1 : j * r + i < (j + 1) * r := by
      have : (j + 1) * r = j * r + r := by ring
      omega
    have h2 : (j + 1) * r ≤ c * r := Nat.mul_le_mul_right r (by omega)
    omega
  refine ⟨v, by rw [hrowi, Option.some_bind, hv], ?_⟩
  exact colMajor_get_eq_ok m' i j v (by rw [hlen]; omega)
    (by rw [hlen, hbuf]; omega) hidx

/-! Quadrant helpers for the block layout. -/

lemma quad_rect {T : Type} {rows : List (List T)} {N h : Nat}
    (hrows : rows.length = N) (hsum : h + h = N)
    (f : List T → List T) (hf : ∀ row ∈ rows, (f row).length = h) :
    Rectangular ((rows.take h).map f) h h ∧
    Rectangular (((rows.drop h).take h).map f) h h := by
  refine ⟨⟨?_, ?_⟩, ⟨?_, ?_⟩⟩
  · rw [List.length_map, List.length_take]; omega
  · intro row hrow
    obtain ⟨row', hrow', rfl⟩ := List.mem_map.mp hrow
    exact hf row' (List.take_subset _ _ hrow')
  · rw [List.length_map, List.length_take, List.length_drop]; omega
  · intro row hrow
    obtain ⟨row', hrow', rfl⟩ := List.mem_map.mp hrow
    exact hf row' (List.drop_subset _ _ (List.take_subset _ _ hrow'))

lemma quad_top_getElem {T : Type} (rows : List (List T)) (f : List T → List T)
    (h a : Nat) (ha : a < h) :
    ((rows.take h).map f)[a]? = (rows[a]?).map f := by
  rw [List.getElem?_map, List.getElem?_take, if_pos ha]

lemma quad_bot_getElem {T : Type} (rows : List (List T)) (f : List T → List T)
    (h a : Nat) (ha : a < h) :
    (((rows.drop h).take h).map f)[a]? = (rows[h + a]?).map f := by
  rw [List.getElem?_map, List.getElem?_take, if_pos ha, List.getElem?_drop]

lemma quad_left_colElem {T : Type} (row : List T) (h b : Nat) (hb : b < h) :
    (row.take h)[b]? = row[b]? := by
  rw [List.getElem?_take, if_pos hb]

lemma quad_right_colElem {T : Type} (row : List T) (h b : Nat) (hb : b < h) :
    ((row.drop h).take h)[b]? = row[h + b]? := by
  rw [List.getElem?_take, if_pos hb, List.getElem?_drop]

/-! Block-layout soundness. -/

lemma blocky_new_sound {T : Type} {rows : List (List T)} {N : Nat}
    (hrect : Rectangular rows N N) (heven : N % 2 = 0) (hN2 : 2 ≤ N) :
    ∃ (q0 q1 q2 q3 : MatrixRowMajor T),
      MatrixBlocky.new rows = some ⟨[q0, q1, q2, q3], N⟩ ∧
      (MatrixRowMajor.new ((rows.take (N / 2)).map (fun row => row.take (N / 2))) = some q0 ∧
        q0.len = N / 2 ∧ q0.arr.length = N / 2 * (N / 2)) ∧
      (MatrixRowMajor.new ((rows.take (N / 2)).map
          (fun row => (row.drop (N / 2)).take (N / 2))) = some q1 ∧
        q1.len = N / 2 ∧ q1.arr.length = N / 2 * (N / 2)) ∧
      (MatrixRowMajor.new (((rows.drop (N / 2)).take (N / 2)).map
          (fun row => row.take (N / 2))) = some q2 ∧
        q2.len = N / 2 ∧ q2.arr.length = N / 2 * (N / 2)) ∧
      (MatrixRowMajor.new (((rows.drop (N / 2)).take (N / 2)).map
          (fun row => (row.drop (N / 2)).take (N / 2))) = some q3 ∧
        q3.len = N / 2 ∧ q3.arr.length = N / 2 * (N / 2)) := by
  obtain ⟨hrows, hall⟩ := hrect
  have hsum : N / 2 + N / 2 = N := by omega
  have hhpos : 1 ≤ N / 2 := by omega
  have hf_take : ∀ row ∈ rows, (row.take (N / 2)).length = N / 2 := by
    intro row hrow
    rw [List.length_take, hall row hrow]
    omega
  have hf_dt : ∀ row ∈ rows, ((row.drop (N / 2)).take (N / 2)).length = N / 2 := by
    intro row hrow
    rw [List.length_take, List.length_drop, hall row hrow]
    omega
  obtain ⟨hrtl, hrbl⟩ := quad_rect hrows hsum (fun row => row.take (N / 2)) hf_take
  obtain ⟨hrtr, hrbr⟩ := quad_rect hrows hsum
    (fun row => (row.drop (N / 2)).take (N / 2)) hf_dt
  obtain ⟨q0, hq0, _, hl0, hb0⟩ := rowMajor_new_sound hrtl hhpos
  obtain ⟨q1, hq1, _, hl1, hb1⟩ := rowMajor_new_sound hrtr hhpos
  obtain ⟨q2, hq2, _, hl2, hb2⟩ := rowMajor_new_sound hrbl hhpos
  obtain ⟨q3, hq3, _, hl3, hb3⟩ := rowMajor_new_sound hrbr hhpos
  refine ⟨q0, q1, q2, q3, ?_, ⟨hq0, hl0, hb0⟩, ⟨hq1, hl1, hb1⟩,
    ⟨hq2, hl2, hb2⟩, ⟨hq3, hl3, hb3⟩⟩
  unfold MatrixBlocky.new
  simp only [hrows]
  rw [hq0, hq1, hq2, hq3]
  rfl

lemma blocky_get_eq {T : Type} (arr : List (MatrixRowMajor T)) (N i j : Nat)
    (hN : ¬ N / 2 = 0) (q : MatrixRowMajor T)
    (hq : arr[(i / (N / 2)) * 2 + (j / (N / 2))]? = some q) :
    (⟨arr, N⟩ : MatrixBlocky T).get i j = q.get (i % (N / 2)) (j % (N / 2)) := by
  unfold MatrixBlocky.get
  rw [if_neg hN, hq]

lemma blocky_get_ok {T : Type} {rows : List (List T)} {N : Nat}
    (hrect : Rectangular rows N N) (heven : N % 2 = 0) (hN2 : 2 ≤ N)
    {mb : MatrixBlocky T} (hmb : MatrixBlocky.new rows = some mb)
    {i j : Nat} (hi : i < N) (hj : j < N) :
    ∃ v, rows[i]?.bind (fun row => row[j]?) = some v ∧
      mb.get i j = some (Except.ok v) := by
  obtain ⟨q0, q1, q2, q3, hnew, ⟨hq0, _, _⟩, ⟨hq1, _, _⟩, ⟨hq2, _, _⟩, ⟨hq3, _, _⟩⟩ :=
    blocky_new_sound hrect heven hN2
  rw [hnew] at hmb
  injection hmb with hmb
  subst hmb
  obtain ⟨hrows, hall⟩ := hrect
  have hsum : N / 2 + N / 2 = N := by omega
  have hhpos : 1 ≤ N / 2 := by omega
  have hf_take : ∀ row ∈ rows, (row.take (N / 2)).length = N / 2 := by
    intro row hrow
    rw [List.length_take, hall row hrow]
    omega
  have hf_dt : ∀ row ∈ rows, ((row.drop (N / 2)).take (N / 2)).length = N / 2 := by
    intro row hrow
    rw [List.length_take, List.length_drop, hall row hrow]
    omega
  obtain ⟨hrtl, hrbl⟩ := quad_rect hrows hsum (fun row => row.take (N / 2)) hf_take
  obtain ⟨hrtr, hrbr⟩ := quad_rect hrows hsum
    (fun row => (row.drop (N / 2)).take (N / 2)) hf_dt
  obtain ⟨rowi, hrowi⟩ : ∃ row, rows[i]? = some row :=
    ⟨_, List.getElem?_eq_getElem (by omega)⟩
  by_cases hilt : i < N / 2 <;> by_cases hjlt : j < N / 2
  · -- top-left quadrant
    obtain ⟨v, hv, hget⟩ := rowMajor_get_ok hrtl hq0 hilt hjlt
    rw [quad_top_getElem rows _ _ i hilt, hrowi, Option.map_some', Option.some_bind,
      quad_left_colElem rowi _ j hjlt] at hv
    refine ⟨v, by rw [hrowi, Option.some_bind]; exact hv, ?_⟩
    rw [blocky_get_eq _ N i j (by omega) q0
        (by rw [Nat.div_eq_of_lt hilt, Nat.div_eq_of_lt hjlt]; rfl),
      Nat.mod_eq_of_lt hilt, Nat.mod_eq_of_lt hjlt]
    exact hget
  · -- top-right quadrant
    have hjd : j / (N / 2) = 1 := Nat.div_eq_of_lt_le (by omega) (by omega)
    have hjm : j % (N / 2) = j - N / 2 := by
      rw [Nat.mod_eq_sub_mod (by omega)]
      exact Nat.mod_eq_of_lt (by omega)
    obtain ⟨v, hv, hget⟩ := rowMajor_get_ok hrtr hq1 hilt
      (show j - N / 2 < N / 2 by omega)
    rw [quad_top_getElem rows _ _ i hilt, hrowi, Option.map_some', Option.some_bind,
      quad_right_colElem rowi _ _ (show j - N / 2 < N / 2 by omega),
      show N / 2 + (j - N / 2) = j by omega] at hv
    refine ⟨v, by rw [hrowi, Option.some_bind]; exact hv, ?_⟩
    rw [blocky_get_eq _ N i j (by omega) q1
        (by rw [Nat.div_eq_of_lt hilt, hjd]; rfl),
      Nat.mod_eq_of_lt hilt, hjm]
    exact hget
  · -- bottom-left quadrant
    have hid : i / (N / 2) = 1 := Nat.div_eq_of_lt_le (by omega) (by omega)
    have him : i % (N / 2) = i - N / 2 := by
      rw [Nat.mod_eq_sub_mod (by omega)]
      exact Nat.mod_eq_of_lt (by omega)
    obtain ⟨v, hv, hget⟩ := rowMajor_get_ok hrbl hq2
      (show i - N / 2 < N / 2 by omega) hjlt
    rw [quad_bot_getElem rows _ _ _ (show i - N / 2 < N / 2 by omega),
      show N / 2 + (i - N / 2) = i by omega, hrowi, Option.map_some', Option.some_bind,
      quad_left_colElem rowi _ j hjlt] at hv
    refine ⟨v, by rw [hrowi, Option.some_bind]; exact hv, ?_⟩
    rw [blocky_get_eq _ N i j (by omega) q2
        (by rw [hid, Nat.div_eq_of_lt hjlt]; rfl),
      him, Nat.mod_eq_of_lt hjlt]
    exact hget
  · -- bottom-right quadrant
    have hid : i / (N / 2) = 1 := Nat.div_eq_of_lt_le (by omega) (by omega)
    have him : i % (N / 2) = i - N / 2 := by
      rw [Nat.mod_eq_sub_mod (by omega)]
      exact Nat.mod_eq_of_lt (by omega)
    have hjd : j / (N / 2) = 1 := Nat.div_eq_of_lt_le (by omega) (by omega)
    have hjm : j % (N / 2) = j - N / 2 := by
      rw [Nat.mod_eq_sub_mod (by omega)]
      exact Nat.mod_eq_of_lt (by omega)
    obtain ⟨v, hv, hget⟩ := rowMajor_get_ok hrbr hq3
      (show i - N / 2 < N / 2 by omega) (show j - N / 2 < N / 2 by omega)
    rw [quad_bot_getElem rows _ _ _ (show i - N / 2 < N / 2 by omega),
      show N / 2 + (i - N / 2) = i by omega, hrowi, Option.map_some', Option.some_bind,
      quad_right_colElem rowi _ _ (show j - N / 2 < N / 2 by omega),
      show N / 2 + (j - N / 2) = j by omega] at hv
    refine ⟨v, by rw [hrowi, Option.some_bind]; exact hv, ?_⟩
    rw [blocky_get_eq _ N i j (by omega) q3 (by rw [hid, hjd]; rfl), him, hjm]
    exact hget

/-! Claim theorems. -/

/-- C1: for every non-empty rectangular input with `r` rows, each of the same
length `c ≥ 1`, and every `i < r`, `j < c`, the row-major matrix built by
`MatrixRowMajor::new` and the column-major matrix built by
`MatrixColMajor::new` both answer `get i j` with `Ok` of the input's element
at row `i`, column `j` — so the two layouts agree with the source and with
each other on every in-range coordinate. -/
theorem C1_row_col_layouts_agree {T : Type} (rows : List (List T)) (r c i j : Nat)
    (hrect : Rectangular rows r c) (hi : i < r) (hj : j < c) :
    ∃ (mr : MatrixRowMajor T) (mc : MatrixColMajor T) (v : T),
      MatrixRowMajor.new rows = some mr ∧
      MatrixColMajor.new rows = some mc ∧
      rows[i]?.bind (fun row => row[j]?) = some v ∧
      mr.get i j = some (Except.ok v) ∧
      mc.get i j = some (Except.ok v) := by
  obtain ⟨mr, hmr, _, _, _⟩ := rowMajor_new_sound hrect (by omega)
  obtain ⟨mc, hmc, _, _, _⟩ := colMajor_new_sound hrect (by omega)
  obtain ⟨v, hv, hrg⟩ := rowMajor_get_ok hrect hmr hi hj
  obtain ⟨w, hw, hcg⟩ := colMajor_get_ok hrect hmc hi hj
  rw [hv] at hw
  injection hw with hw
  subst hw
  exact ⟨mr, mc, v, hmr, hmc, hv, hrg, hcg⟩

/-- C1 witness: the 2×2 input `[[1, 2], [3, 4]]` at `(1, 0)`, where both
layouts return `Ok 3`. -/
theorem C1_witness :
    ∃ (mr : MatrixRowMajor Nat) (mc : MatrixColMajor Nat) (v : Nat),
      MatrixRowMajor.new [[1, 2], [3, 4]] = some mr ∧
      MatrixColMajor.new [[1, 2], [3, 4]] = some mc ∧
      ([[1, 2], [3, 4]] : List (List Nat))[1]?.bind (fun row => row[0]?) = some v ∧
      mr.get 1 0 = some (Except.ok v) ∧
      mc.get 1 0 = some (Except.ok v) :=
  C1_row_col_layouts_agree [[1, 2], [3, 4]] 2 2 1 0 (by decide) (by decide) (by decide)

/-- C2 is refuted by the code: at the 1×1 input `[[1]]`, the calls
`get 1 0` on the row-major layout and `get 0 1` on the column-major layout
compute offset `1`, equal to the buffer length; both strict `>` checks pass
and the raw buffer access `arr[1]` is out of range — the Rust code panics
(`none` in the embedding) instead of returning an `Err` value. -/
theorem C2_panic_at_buffer_boundary :
    (MatrixRowMajor.new ([[1]] : List (List Nat))).map (fun m => m.get 1 0) =
      some none ∧
    (MatrixColMajor.new ([[1]] : List (List Nat))).map (fun m => m.get 0 1) =
      some none := by
  exact ⟨by decide, by decide⟩

/-- C3 is refuted by the code at the exact boundary it describes: on the
3×4 test input, `get 2 4` has `j` equal to the stride `4`; it passes the
shape check, and its offset `2*4 + 4 = 12` equals the buffer length, so the
buffer check also passes and the raw access `arr[12]` panics (`none`) —
neither `Ok` nor an `OutOfBoundIndexing` error. -/
theorem C3_panic_at_stride_boundary :
    (MatrixRowMajor.new ([[1, 2, 3, 4], [5, 6, 7, 8], [9, 10, 11, 12]] :
        List (List Nat))).map (fun m => m.get 2 4) = some none := by
  decide

/-- C5: on any row-major instance, `get i j` with `j` strictly greater than
the stride fails with `ForbiddenIndexing` (carrying the stride and `j`);
symmetrically, on any column-major instance, `get i j` with `i` strictly
greater than the stride fails with `ForbiddenIndexing`.  Each layout's
hypothesis guards only its own conjunct, so each half covers every
coordinate pair the claim is about, for every instance — in particular every
constructed one. -/
theorem C5_forbidden_beyond_stride {T : Type} (mr : MatrixRowMajor T)
    (mc : MatrixColMajor T) (i j : Nat) :
    (j > mr.len → mr.get i j = some (Except.error (MatrixError.ForbiddenIndexing
      ("Forbidden indexing: the len of matrix is " ++ toString mr.len ++
        " but the index is " ++ toString j)))) ∧
    (i > mc.len → mc.get i j = some (Except.error (MatrixError.ForbiddenIndexing
      ("Forbidden indexing: the len of matrix is " ++ toString i ++
        " but the index is " ++ toString mc.len)))) := by
  constructor
  · intro hr
    unfold MatrixRowMajor.get
    rw [if_pos hr]
  · intro hc
    unfold MatrixColMajor.get
    rw [if_pos hc]

/-- C5 witness: a 2×3 row-major buffer queried at `(0, 4)` with `j = 4 > 3`
(row index 0, which the conjoined-hypothesis form could not reach) and a 3×2
column-major buffer (stride 2) queried at `(4, 0)` with `i = 4 > 2`. -/
theorem C5_witness :
    (⟨[1, 2, 3, 4, 5, 6], 3⟩ : MatrixRowMajor Nat).get 0 4 =
      some (Except.error (MatrixError.ForbiddenIndexing
        ("Forbidden indexing: the len of matrix is 3 but the index is 4"))) ∧
    (⟨[1, 2, 3, 4, 5, 6], 2⟩ : MatrixColMajor Nat).get 4 0 =
      some (Except.error (MatrixError.ForbiddenIndexing
        ("Forbidden indexing: the len of matrix is 4 but the index is 2"))) :=
  ⟨(C5_forbidden_beyond_stride ⟨[1, 2, 3, 4, 5, 6], 3⟩
      ⟨[1, 2, 3, 4, 5, 6], 2⟩ 0 4).1 (by decide),
    (C5_forbidden_beyond_stride ⟨[1, 2, 3, 4, 5, 6], 3⟩
      ⟨[1, 2, 3, 4, 5, 6], 2⟩ 4 0).2 (by decide)⟩

/-- C6: on any row-major instance, a coordinate passing the shape check
(`j ≤ stride`) whose offset `i*stride + j` strictly exceeds the buffer length
fails with `OutOfBoundIndexing`; symmetrically for the column-major layout
with offset `j*stride + i`. -/
theorem C6_out_of_bound_past_buffer {T : Type} (mr : MatrixRowMajor T)
    (mc : MatrixColMajor T) (i j : Nat)
    (h1 : j ≤ mr.len) (h2 : i * mr.len + j > mr.arr.length)
    (h3 : i ≤ mc.len) (h4 : j * mc.len + i > mc.arr.length) :
    (∃ s, mr.get i j = some (Except.error (MatrixError.OutOfBoundIndexing s))) ∧
    (∃ s, mc.get i j = some (Except.error (MatrixError.OutOfBoundIndexing s))) := by
  constructor
  · refine ⟨"Out of bound indexing: len is " ++ toString mr.len ++
      " but the index is " ++ toString (decide (i * mr.len + j > mr.arr.length)), ?_⟩
    unfold MatrixRowMajor.get
    rw [if_neg (by omega), if_pos h2]
  · refine ⟨"Out of bound indexing: len is " ++ toString mc.len ++
      " but the index is " ++ toString (j * mc.len + i), ?_⟩
    unfold MatrixColMajor.get
    rw [if_neg (by omega), if_pos h4]

/-- C6 witness: the 3×4 row-major buffer at `(5, 2)` (offset 22 > 12) and a
stride-5 column-major buffer at the same coordinate (offset 15 > 12). -/
theorem C6_witness :
    (∃ s, (⟨[1, 2, 3, 4, 5, 6, 7, 8, 9, 10, 11, 12], 4⟩ :
        MatrixRowMajor Nat).get 5 2 =
      some (Except.error (MatrixError.OutOfBoundIndexing s))) ∧
    (∃ s, (⟨[1, 2, 3, 4, 5, 6, 7, 8, 9, 10, 11, 12], 5⟩ :
        MatrixColMajor Nat).get 5 2 =
      some (Except.error (MatrixError.OutOfBoundIndexing s))) :=
  C6_out_of_bound_past_buffer ⟨[1, 2, 3, 4, 5, 6, 7, 8, 9, 10, 11, 12], 4⟩
    ⟨[1, 2, 3, 4, 5, 6, 7, 8, 9, 10, 11, 12], 5⟩ 5 2
    (by decide) (by decide) (by decide) (by decide)

/-- C7: for every non-empty rectangular input with `r` rows and `c` columns,
`MatrixRowMajor::new` yields a buffer of length `r·c` with stride `c` (the
first row's length), and `MatrixColMajor::new` yields a buffer of length
`r·c` with stride `r`.  The embedding is purely functional — no operation
mutates an instance — so buffer length and stride are fixed at construction. -/
theorem C7_shape_invariants {T : Type} (rows : List (List T)) (r c : Nat)
    (hrect : Rectangular rows r c) (hr : 1 ≤ r) :
    ∃ (mr : MatrixRowMajor T) (mc : MatrixColMajor T),
      MatrixRowMajor.new rows = some mr ∧ mr.arr.length = r * c ∧ mr.len = c ∧
      MatrixColMajor.new rows = some mc ∧ mc.arr.length = r * c ∧ mc.len = r := by
  obtain ⟨mr, hmr, _, hlen, hbuf⟩ := rowMajor_new_sound hrect hr
  obtain ⟨mc, hmc, hclen, hcbuf, _⟩ := colMajor_new_sound hrect hr
  exact ⟨mr, mc, hmr, hbuf, hlen, hmc, by rw [hcbuf]; ring, hclen⟩

/-- C7 witness: the 3×4 test input — both buffers have 12 elements; the
row-major stride is 4 and the column-major stride is 3. -/
theorem C7_witness :
    ∃ (mr : MatrixRowMajor Nat) (mc : MatrixColMajor Nat),
      MatrixRowMajor.new [[1, 2, 3, 4], [5, 6, 7, 8], [9, 10, 11, 12]] = some mr ∧
      mr.arr.length = 3 * 4 ∧ mr.len = 4 ∧
      MatrixColMajor.new [[1, 2, 3, 4], [5, 6, 7, 8], [9, 10, 11, 12]] = some mc ∧
      mc.arr.length = 3 * 4 ∧ mc.len = 3 :=
  C7_shape_invariants [[1, 2, 3, 4], [5, 6, 7, 8], [9, 10, 11, 12]] 3 4
    (by decide) (by decide)

/-- C8 counterexample: built from the 3×4 test input, the row-major
out-of-bound error at `(5, 2)` — computed offset `5*4 + 2 = 22` — carries the
message `"Out of bound indexing: len is 4 but the index is true"`: the second
formatted value is the overflow boolean, and the decimal rendering of the
offending offset, `22`, does not occur anywhere in the message, so this `Err`
does not embed the computed offset. -/
theorem C8_counterexample :
    (MatrixRowMajor.new ([[1, 2, 3, 4], [5, 6, 7, 8], [9, 10, 11, 12]] :
        List (List Nat))).map (fun m => m.get 5 2) =
      some (some (Except.error (MatrixError.OutOfBoundIndexing
        ("Out of bound indexing: len is 4 but the index is true")))) ∧
    ¬ List.IsInfix (String.toList ("22"))
        (String.toList ("Out of bound indexing: len is 4 but the index is true")) := by
  exact ⟨by decide, by decide⟩

/-- C8 as amended: every `Err` of `get` carries the exact message below.  The
two forbidden messages and the column-major out-of-bound message embed the
stride together with the offending index or offset (the column-major
forbidden message prints them in swapped positions); the row-major
out-of-bound message embeds the stride but renders the overflow boolean
`true` in place of the computed offset. -/
theorem C8_error_message_contents {T : Type} (mr : MatrixRowMajor T)
    (mc : MatrixColMajor T) (i j : Nat) :
    (j > mr.len → mr.get i j = some (Except.error (MatrixError.ForbiddenIndexing
      ("Forbidden indexing: the len of matrix is " ++ toString mr.len ++
        " but the index is " ++ toString j)))) ∧
    (j ≤ mr.len → i * mr.len + j > mr.arr.length →
      mr.get i j = some (Except.error (MatrixError.OutOfBoundIndexing
        ("Out of bound indexing: len is " ++ toString mr.len ++
          " but the index is " ++ toString true)))) ∧
    (i > mc.len → mc.get i j = some (Except.error (MatrixError.ForbiddenIndexing
      ("Forbidden indexing: the len of matrix is " ++ toString i ++
        " but the index is " ++ toString mc.len)))) ∧
    (i ≤ mc.len → j * mc.len + i > mc.arr.length →
      mc.get i j = some (Except.error (MatrixError.OutOfBoundIndexing
        ("Out of bound indexing: len is " ++ toString mc.len ++
          " but the index is " ++ toString (j * mc.len + i))))) := by
  refine ⟨?_, ?_, ?_, ?_⟩
  · intro h
    unfold MatrixRowMajor.get
    rw [if_pos h]
  · intro h1 h2
    unfold MatrixRowMajor.get
    rw [if_neg (by omega), if_pos h2, decide_eq_true h2]
  · intro h
    unfold MatrixColMajor.get
    rw [if_pos h]
  · intro h1 h2
    unfold MatrixColMajor.get
    rw [if_neg (by omega), if_pos h2]

/-- C8 witness: the four error branches exercised on concrete 12-element
buffers, with the resulting message of each branch spelled out. -/
theorem C8_witness :
    (⟨[1, 2, 3, 4, 5, 6, 7, 8, 9, 10, 11, 12], 4⟩ : MatrixRowMajor Nat).get 0 5 =
      some (Except.error (MatrixError.ForbiddenIndexing
        ("Forbidden indexing: the len of matrix is 4 but the index is 5"))) ∧
    (⟨[1, 2, 3, 4, 5, 6, 7, 8, 9, 10, 11, 12], 4⟩ : MatrixRowMajor Nat).get 5 2 =
      some (Except.error (MatrixError.OutOfBoundIndexing
        ("Out of bound indexing: len is 4 but the index is true"))) ∧
    (⟨[1, 2, 3, 4, 5, 6, 7, 8, 9, 10, 11, 12], 4⟩ : MatrixColMajor Nat).get 5 0 =
      some (Except.error (MatrixError.ForbiddenIndexing
        ("Forbidden indexing: the len of matrix is 5 but the index is 4"))) ∧
    (⟨[1, 2, 3, 4, 5, 6, 7, 8, 9, 10, 11, 12], 4⟩ : MatrixColMajor Nat).get 2 5 =
      some (Except.error (MatrixError.OutOfBoundIndexing
        ("Out of bound indexing: len is 4 but the index is 22"))) :=
  ⟨(C8_error_message_contents ⟨[1, 2, 3, 4, 5, 6, 7, 8, 9, 10, 11, 12], 4⟩
      ⟨[1, 2, 3, 4, 5, 6, 7, 8, 9, 10, 11, 12], 4⟩ 0 5).1 (by decide),
    (C8_error_message_contents ⟨[1, 2, 3, 4, 5, 6, 7, 8, 9, 10, 11, 12], 4⟩
      ⟨[1, 2, 3, 4, 5, 6, 7, 8, 9, 10, 11, 12], 4⟩ 5 2).2.1 (by decide) (by decide),
    (C8_error_message_contents ⟨[1, 2, 3, 4, 5, 6, 7, 8, 9, 10, 11, 12], 4⟩
      ⟨[1, 2, 3, 4, 5, 6, 7, 8, 9, 10, 11, 12], 4⟩ 5 0).2.2.1 (by decide),
    (C8_error_message_contents ⟨[1, 2, 3, 4, 5, 6, 7, 8, 9, 10, 11, 12], 4⟩
      ⟨[1, 2, 3, 4, 5, 6, 7, 8, 9, 10, 11, 12], 4⟩ 2 5).2.2.2 (by decide) (by decide)⟩

/-- C9: on a row-major matrix built from a uniform `r × c` input with
`c ≥ 1`, the boundary call `get i c` — column index exactly equal to the
stride — returns `Ok` of the input's element at row `i+1`, column `0`
whenever `i + 1 < r`: the accepted boundary coordinate silently wraps into
the first element of the next logical row. -/
theorem C9_stride_boundary_wraps {T : Type} (rows : List (List T)) (r c i : Nat)
    (hrect : Rectangular rows r c) (hc : 1 ≤ c) (hi : i + 1 < r) :
    ∃ (m : MatrixRowMajor T) (v : T),
      MatrixRowMajor.new rows = some m ∧
      rows[i + 1]?.bind (fun row => row[0]?) = some v ∧
      m.get i c = some (Except.ok v) := by
  obtain ⟨m, hm, harr, hlen, hbuf⟩ := rowMajor_new_sound hrect (by omega)
  obtain ⟨hrows, hall⟩ := hrect
  obtain ⟨rown, hrown⟩ : ∃ row, rows[i + 1]? = some row :=
    ⟨_, List.getElem?_eq_getElem (by omega)⟩
  have hrowlen : rown.length = c := hall rown (List.getElem?_mem hrown)
  obtain ⟨v, hv⟩ : ∃ v, rown[0]? = some v :=
    ⟨_, List.getElem?_eq_getElem (by omega)⟩
  have hidx : rows.flatten[(i + 1) * c + 0]? = some v := by
    rw [flatten_getElem_uniform rows (i + 1) 0 hall (by omega) (by omega), hrown,
      Option.some_bind, hv]
  refine ⟨m, v, hm, by rw [hrown, Option.some_bind, hv], ?_⟩
  have hofflt : i * c + c < r * c := by
    have h1 : (i + 2) * c ≤ r * c := Nat.mul_le_mul_right c (by omega)
    have h2 : (i + 2) * c = i * c + c + c := by ring
    omega
  refine rowMajor_get_eq_ok m i c v (by omega) (by rw [hlen, hbuf]; omega) ?_
  rw [hlen, harr, show i * c + c = (i + 1) * c + 0 from by ring]
  exact hidx

/-- C9 witness: the 3×4 test input — `get 0 4` lands on element 5, the first
entry of row 1, with no error. -/
theorem C9_witness :
    ∃ (m : MatrixRowMajor Nat) (v : Nat),
      MatrixRowMajor.new [[1, 2, 3, 4], [5, 6, 7, 8], [9, 10, 11, 12]] = some m ∧
      ([[1, 2, 3, 4], [5, 6, 7, 8], [9, 10, 11, 12]] :
        List (List Nat))[0 + 1]?.bind (fun row => row[0]?) = some v ∧
      m.get 0 4 = some (Except.ok v) :=
  C9_stride_boundary_wraps [[1, 2, 3, 4], [5, 6, 7, 8], [9, 10, 11, 12]] 3 4 0
    (by decide) (by decide) (by decide)

/-- C10: on the block-layout instance produced by `default` (empty quadrant
vector, side length 0) and on any block instance whose stored side length is
0 or 1, every `get i j` hits the division `i / (len / 2)` with `len / 2 = 0`,
which panics in Rust — in the total embedding `get` returns `none`, neither
`Ok` nor `Err`, for every coordinate pair. -/
theorem C10_degenerate_block_get_panics {T : Type} (m : MatrixBlocky T)
    (i j : Nat) (h : m.len = 0 ∨ m.len = 1) :
    m.get i j = none ∧ (MatrixBlocky.default T).get i j = none := by
  constructor
  · unfold MatrixBlocky.get
    rw [if_pos (by omega)]
  · simp [MatrixBlocky.get, MatrixBlocky.default]

/-- C10 witness: a block instance with side length 1 and the default block
instance, both queried at the origin. -/
theorem C10_witness :
    (⟨[], 1⟩ : MatrixBlocky Nat).get 0 0 = none ∧
      (MatrixBlocky.default Nat).get 0 0 = none :=
  C10_degenerate_block_get_panics ⟨[], 1⟩ 0 0 (Or.inr rfl)

/-- C4: for every even `N ≥ 2` and `N×N` rectangular input,
`MatrixBlocky::new` builds exactly four `(N/2)×(N/2)` row-major quadrants
(top-left, top-right, bottom-left, bottom-right); for all `i, j < N`,
`get i j` selects the quadrant at index `(i / (N/2)) * 2 + (j / (N/2))`,
delegates to that quadrant's row-major `get` at `(i % (N/2), j % (N/2))`,
and returns `Ok` of the original un-split input's element at `(i, j)`. -/
theorem C4_block_quadrants_delegate {T : Type} (rows : List (List T)) (N i j : Nat)
    (hrect : Rectangular rows N N) (heven : N % 2 = 0) (hN2 : 2 ≤ N)
    (hi : i < N) (hj : j < N) :
    ∃ (mb : MatrixBlocky T) (v : T),
      MatrixBlocky.new rows = some mb ∧
      mb.len = N ∧ mb.arr.length = 4 ∧
      (∀ q ∈ mb.arr, q.len = N / 2 ∧ q.arr.length = N / 2 * (N / 2)) ∧
      (∃ q, mb.arr[(i / (N / 2)) * 2 + (j / (N / 2))]? = some q ∧
        mb.get i j = q.get (i % (N / 2)) (j % (N / 2))) ∧
      rows[i]?.bind (fun row => row[j]?) = some v ∧
      mb.get i j = some (Except.ok v) := by
  obtain ⟨q0, q1, q2, q3, hnew, ⟨hq0, hl0, hb0⟩, ⟨hq1, hl1, hb1⟩,
    ⟨hq2, hl2, hb2⟩, ⟨hq3, hl3, hb3⟩⟩ := blocky_new_sound hrect heven hN2
  obtain ⟨v, hv, hget⟩ := blocky_get_ok hrect heven hN2 hnew hi hj
  have hdi : i / (N / 2) < 2 := by
    rw [Nat.div_lt_iff_lt_mul (by omega)]
    omega
  have hdj : j / (N / 2) < 2 := by
    rw [Nat.div_lt_iff_lt_mul (by omega)]
    omega
  refine ⟨⟨[q0, q1, q2, q3], N⟩, v, hnew, rfl, rfl, ?_, ?_, hv, hget⟩
  · intro q hq
    simp only [List.mem_cons, List.not_mem_nil, or_false] at hq
    rcases hq with rfl | rfl | rfl | rfl
    · exact ⟨hl0, hb0⟩
    · exact ⟨hl1, hb1⟩
    · exact ⟨hl2, hb2⟩
    · exact ⟨hl3, hb3⟩
  · obtain ⟨q, hq⟩ : ∃ q, ([q0, q1, q2, q3] :
        List (MatrixRowMajor T))[(i / (N / 2)) * 2 + (j / (N / 2))]? = some q :=
      ⟨_, List.getElem?_eq_getElem (by simp only [List.length_cons]; omega)⟩
    exact ⟨q, hq, blocky_get_eq _ N i j (by omega) q hq⟩

/-- C4 witness: the repository's 6×6 block test input at `(3, 2)`, which
lands in the bottom-left quadrant and returns `Ok 21`. -/
theorem C4_witness :
    ∃ (mb : MatrixBlocky Nat) (v : Nat),
      MatrixBlocky.new [[1, 2, 3, 4, 5, 6], [7, 8, 9, 10, 11, 12],
        [13, 14, 15, 16, 17, 18], [19, 20, 21, 22, 23, 24],
        [25, 26, 27, 28, 29, 30], [31, 32, 33, 34, 35, 36]] = some mb ∧
      mb.len = 6 ∧ mb.arr.length = 4 ∧
      (∀ q ∈ mb.arr, q.len = 3 ∧ q.arr.length = 3 * 3) ∧
      (∃ q, mb.arr[(3 / 3) * 2 + 2 / 3]? = some q ∧
        mb.get 3 2 = q.get (3 % 3) (2 % 3)) ∧
      ([[1, 2, 3, 4, 5, 6], [7, 8, 9, 10, 11, 12],
        [13, 14, 15, 16, 17, 18], [19, 20, 21, 22, 23, 24],
        [25, 26, 27, 28, 29, 30], [31, 32, 33, 34, 35, 36]] :
        List (List Nat))[3]?.bind (fun row => row[2]?) = some v ∧
      mb.get 3 2 = some (Except.ok v) :=
  C4_block_quadrants_delegate [[1, 2, 3, 4, 5, 6], [7, 8, 9, 10, 11, 12],
    [13, 14, 15, 16, 17, 18], [19, 20, 21, 22, 23, 24],
    [25, 26, 27, 28, 29, 30], [31, 32, 33, 34, 35, 36]] 6 3 2
    (by decide) (by decide) (by decide) (by decide) (by decide)
